import Mathlib

/-!
Verification of the minor star-allele refinement engine (aldy/minor.py).

The Python module builds, per major star-allele solution, an integer linear
program over candidate minor-allele copy instances, solves it through an
abstract solver backend, and reconstructs a MinorSolution from the solver's
variable assignment.  We embed the data model, the exact constraint families
added by solve_minor_model, the penalized objective, the build-time Python
faults (KeyError / AssertionError) and the solution reconstruction, and prove
the specification claims against this embedding.

External collaborators (Gene, Coverage, CnSolution, the solver backend) are
not part of the shown source; per the specification they are interfaces, so
they are modelled as structures of total query functions, and the solver is
modelled as an oracle that either signals infeasibility or returns a variable
assignment together with the reported optimal objective value.
-/

set_option autoImplicit false

namespace Aldy

/-- A genomic mutation: position, operation descriptor (e.g. a substitution,
insertion, deletion, or the reference marker), and its functional flag.
Mirrors aldy.gene.Mutation as used by minor.py (the aux field plays no role
in the model). -/
structure Mutation where
  pos : Nat
  op : String
  is_functional : Bool
deriving DecidableEq

/-- aldy.major.SolvedAllele: (major name, optional minor name, tuple of added
mutations, tuple of missing mutations).  Used both as a major-level key
(minor = none) and to describe a fully resolved minor allele. -/
structure SolvedAllele where
  major : String
  minor : Option String
  added : List Mutation
  missing : List Mutation
deriving DecidableEq

/-- Modelled from the spec: the per-major-allele record of the gene catalog
(aldy.gene.Allele): its defining functional mutations and its minor-allele
definitions, each carrying neutral mutations. -/
structure GAllele where
  func_muts : List Mutation
  minors : List (String × List Mutation)

/-- Modelled from the spec: the Gene reference catalog interface, exposing the
per-major-allele record and the structural-coverage predicate
"does the region covering this position have non-zero expected coverage for
this major allele". -/
structure Gene where
  alleles : String → GAllele
  has_coverage : String → Nat → Bool

/-- Modelled from the spec: per-position total copy number of the sample
(aldy.cn.CnSolution).  The diagnostic comment in the source notes the value
may contain 0.5 as a summand, hence ℚ. -/
structure CnSolution where
  position_cn : Nat → ℚ

/-- Modelled from the spec: the Coverage query interface.  Lookup is by
(position, operation) as in aldy.coverage.Coverage; single_copy gives the
expected single-copy coverage at a position under a copy-number solution;
percentage the percentage-of-total coverage of a mutation. -/
structure Coverage where
  cov : Nat → String → ℚ
  single_copy : Nat → CnSolution → ℚ
  percentage : Nat → String → ℚ

/-- aldy.major.MajorSolution: mapping from major-level SolvedAllele keys to
copy counts (a Python dict, embedded as an association list in insertion
order) plus the copy-number solution. -/
structure MajorSolution where
  solution : List (SolvedAllele × Nat)
  cn_solution : CnSolution

/-- MinorSolution: model score, list of resolved minor alleles, and the major
solution used. -/
structure MinorSolution where
  score : ℚ
  solution : List SolvedAllele
  major_solution : MajorSolution

/-- The Python faults solve_minor_model can raise while building the model:
a failed dict lookup and a failed defensive assert. -/
inductive PyErr where
  | keyError
  | assertionError
deriving DecidableEq

instance {ε α : Type} [DecidableEq ε] [DecidableEq α] : DecidableEq (Except ε α) := fun a b =>
  match a, b with
  | .error e, .error f => decidable_of_iff (e = f) (by simp)
  | .error _, .ok _ => isFalse (fun h => Except.noConfusion h)
  | .ok _, .error _ => isFalse (fun h => Except.noConfusion h)
  | .ok x, .ok y => decidable_of_iff (x = y) (by simp)

/-- Model parameter: penalty for each missed minor mutation. -/
def MISS_PENALTY_FACTOR : ℚ := 2

/-- Model parameter: penalty for each novel minor mutation. -/
def ADD_PENALTY_FACTOR : ℚ := 1

/-- Helper for pyDedup: keep the elements not seen before, in order. -/
def pyDedupAux {α : Type} [DecidableEq α] (seen : List α) : List α → List α
  | [] => []
  | a :: l => if a ∈ seen then pyDedupAux seen l else a :: pyDedupAux (a :: seen) l

/-- Python dict-key deduplication: keep the first occurrence of each element,
preserving insertion order. -/
def pyDedup {α : Type} [DecidableEq α] (l : List α) : List α :=
  pyDedupAux [] l

/-- Python dict lookup on an association list (first matching key). -/
def dictFind (k : SolvedAllele) (l : List (SolvedAllele × Nat)) : Option Nat :=
  (l.find? (fun p => decide (p.1 = k))).map (fun p => p.2)

/-- The major-level key of a candidate: SolvedAllele(a.major, None, a.added,
a.missing), as looked up on line 176 of minor.py. -/
def baseKey (a : SolvedAllele) : SolvedAllele :=
  ⟨a.major, none, a.added, a.missing⟩

/-- Neutral mutations of the candidate's minor allele
(gene.alleles[a.major].minors[a.minor].neutral_muts); empty when the minor
name is absent from the catalog. -/
def minorNeutral (gene : Gene) (a : SolvedAllele) : List Mutation :=
  match a.minor with
  | none => []
  | some mi => (((gene.alleles a.major).minors.find? (fun p => decide (p.1 = mi))).map
      (fun p => p.2)).getD []

/-- The defining mutation set of a candidate (minor.py line 155-158):
functional mutations of its major allele, neutral mutations of its minor
allele, and the mutations force-added by the major solution.  The Python set
is embedded as a duplicate-free list. -/
def alleleMuts (gene : Gene) (a : SolvedAllele) : List Mutation :=
  pyDedup ((gene.alleles a.major).func_muts ++ minorNeutral gene a ++ a.added)

/-- The functional defining mutations of a candidate (minor.py line 265). -/
def funcMutsOf (gene : Gene) (a : SolvedAllele) : List Mutation :=
  (alleleMuts gene a).filter (fun m => m.is_functional)

/-- The MADD variable domain of a candidate (minor.py lines 200-204): relevant
mutations that do not define the candidate but whose position has coverage for
its major allele. -/
def maddDom (gene : Gene) (muts : List Mutation) (a : SolvedAllele) : List Mutation :=
  muts.filter (fun m => gene.has_coverage a.major m.pos && decide (m ∉ alleleMuts gene a))

/-- Value of a binary model variable. -/
def b2q (b : Bool) : ℚ := if b then 1 else 0

/-- An assignment to the model's decision variables: presence A per candidate
copy instance, MPRESENT and MADD indicators, and the free error terms E. -/
structure Asg where
  A : SolvedAllele × Nat → Bool
  mpresent : SolvedAllele × Nat → Mutation → Bool
  madd : SolvedAllele × Nat → Mutation → Bool
  e : Mutation → ℚ

/-- The synthetic reference marker Mutation(pos, '_') of minor.py line 220. -/
def refMut (pos : Nat) : Mutation := ⟨pos, "_", false⟩

/-- Observed coverage fraction of a mutation: observed count divided by the
expected single-copy coverage at its position (minor.py line 247). -/
def covFrac (coverage : Coverage) (major_sol : MajorSolution) (m : Mutation) : ℚ :=
  coverage.cov m.pos m.op / coverage.single_copy m.pos major_sol.cn_solution

/-- The modeled coverage of mutation m (minor.py lines 209-216): per instance,
MPRESENT·A when m defines the instance, else MADD·A when the instance's major
allele has coverage at m's position, else nothing. -/
def mutExpr (gene : Gene) (insts : List (SolvedAllele × Nat)) (asg : Asg) (m : Mutation) : ℚ :=
  (insts.map (fun k =>
    if m ∈ alleleMuts gene k.1 then b2q (asg.mpresent k m) * b2q (asg.A k)
    else if gene.has_coverage k.1.major m.pos then b2q (asg.madd k m) * b2q (asg.A k)
    else 0)).sum

/-- The non-insertion defining mutations of a candidate at one position
(minor.py line 228). -/
def presentMutsAt (gene : Gene) (a : SolvedAllele) (pos : Nat) : List Mutation :=
  (alleleMuts gene a).filter (fun m => decide (m.pos = pos) && !(decide (m.op.take 3 = "INS")))

/-- Per-instance contribution to the reference-state constraint at a position
(minor.py lines 223-237). -/
def refContrib (gene : Gene) (muts : List Mutation) (asg : Asg) (pos : Nat)
    (k : SolvedAllele × Nat) : ℚ :=
  if gene.has_coverage k.1.major pos then
    if (presentMutsAt gene k.1 pos).length = 1 then
      ((presentMutsAt gene k.1 pos).map
        (fun m => (1 - b2q (asg.mpresent k m)) * b2q (asg.A k))).sum
    else
      (((maddDom gene muts k.1).filter
          (fun m => decide (m.pos = pos) && !(decide (m.op.take 3 = "INS")))).map
        (fun m => 1 - b2q (asg.madd k m))).prod * b2q (asg.A k)
  else 0

/-- The modeled reference-state coverage at a position. -/
def refExpr (gene : Gene) (muts : List Mutation) (insts : List (SolvedAllele × Nat))
    (asg : Asg) (pos : Nat) : ℚ :=
  (insts.map (refContrib gene muts asg pos)).sum

/-- The distinct positions of the relevant mutations (minor.py line 219). -/
def mutPositions (muts : List Mutation) : List Nat :=
  pyDedup (muts.map (fun m => m.pos))

/-- Feasibility of an assignment for the model built by solve_minor_model:
the conjunction of every constraint family the code adds, in source order:
copy ordering (line 184), per-major-key counts (lines 187-191), per-mutation
coverage consistency and reference-state consistency (lines 205-250),
MPRESENT ≤ A and MADD ≤ A (lines 253-260), all-or-nothing functional
expression (lines 264-270), zero-coverage exclusion (lines 272-275) and no
functional addition (lines 277-281).  Binary variables are Bool-valued; the
code's numeric comparisons are stated over their 0/1 values.  The relevant
mutations are real variant calls, i.e. none uses the reference marker
operation, so the error variables of mutations and of the synthetic
per-position reference markers are distinct keys, as in the Python dicts. -/
def MinorFeasible (gene : Gene) (coverage : Coverage) (major_sol : MajorSolution)
    (muts : List Mutation) (insts : List (SolvedAllele × Nat)) (asg : Asg) : Prop :=
  (∀ k ∈ insts, k.2 ≠ 0 → b2q (asg.A k) ≤ b2q (asg.A (k.1, k.2 - 1))) ∧
  (∀ p ∈ major_sol.solution,
    ((insts.filter (fun k => decide (baseKey k.1 = p.1))).map (fun k => b2q (asg.A k))).sum
      = (p.2 : ℚ)) ∧
  (∀ m ∈ muts, mutExpr gene insts asg m + asg.e m = covFrac coverage major_sol m) ∧
  (∀ pos ∈ mutPositions muts,
    refExpr gene muts insts asg pos + asg.e (refMut pos)
      = covFrac coverage major_sol (refMut pos)) ∧
  (∀ k ∈ insts, ∀ m ∈ alleleMuts gene k.1, b2q (asg.mpresent k m) ≤ b2q (asg.A k)) ∧
  (∀ k ∈ insts, ∀ m ∈ maddDom gene muts k.1, b2q (asg.madd k m) ≤ b2q (asg.A k)) ∧
  (∀ k ∈ insts, funcMutsOf gene k.1 ≠ [] →
    ((funcMutsOf gene k.1).map (fun m => b2q (asg.mpresent k m))).sum
      = ((funcMutsOf gene k.1).length : ℚ) * b2q (asg.A k)) ∧
  (∀ k ∈ insts, ∀ m ∈ alleleMuts gene k.1,
    gene.has_coverage k.1.major m.pos = false → b2q (asg.mpresent k m) ≤ 0) ∧
  (∀ m ∈ muts, m.is_functional = true →
    ((insts.filter (fun k => decide (m ∉ alleleMuts gene k.1))).map
      (fun k => b2q (asg.madd k m))).sum ≤ 0)

instance decMinorFeasible (gene : Gene) (coverage : Coverage) (major_sol : MajorSolution)
    (muts : List Mutation) (insts : List (SolvedAllele × Nat)) (asg : Asg) :
    Decidable (MinorFeasible gene coverage major_sol muts insts asg) := by
  unfold MinorFeasible
  infer_instance

/-- The copy-slot expansion of minor.py lines 175-178: for each (deduplicated)
candidate base, look up its major-level key's copy count (a dict access that
raises KeyError when absent) and create keys (a, 1) .. (a, max_cn - 1). -/
def instsExtra (major_sol : MajorSolution) : List SolvedAllele →
    Except PyErr (List (SolvedAllele × Nat))
  | [] => .ok []
  | a :: rest =>
    match dictFind (baseKey a) major_sol.solution with
    | none => .error .keyError
    | some n =>
      match instsExtra major_sol rest with
      | .error e => .error e
      | .ok tail => .ok ((List.range' 1 (n - 1)).map (fun c => (a, c)) ++ tail)

/-- The candidate instance keys of the model, in Python dict insertion order:
first every (candidate, 0) in candidate order (line 155), then the extra copy
slots (lines 175-178). -/
def buildInsts (major_sol : MajorSolution) (alleles_list : List SolvedAllele) :
    Except PyErr (List (SolvedAllele × Nat)) :=
  match instsExtra major_sol (pyDedup alleles_list) with
  | .error e => .error e
  | .ok extra => .ok ((pyDedup alleles_list).map (fun a => (a, 0)) ++ extra)

/-- Python int(): truncation toward zero. -/
def pyInt (q : ℚ) : ℤ := if 0 ≤ q then ⌊q⌋ else ⌈q⌉

/-- The advisory per-mutation copy-number bounds of minor.py lines 294-304:
(0,0) when the position copy number is zero; (1,1) when coverage is observed
but the truncated expected copy count is zero; otherwise the truncated
expected copy count and its increment capped at the position copy number. -/
def cnBounds (coverage : Coverage) (major_sol : MajorSolution) (m : Mutation) : ℚ × ℚ :=
  let m_cn := major_sol.cn_solution.position_cn m.pos
  let exp_cn := coverage.percentage m.pos m.op / 100
  if m_cn = 0 then (0, 0)
  else if 0 < coverage.cov m.pos m.op ∧ pyInt (exp_cn * m_cn) = 0 then (1, 1)
  else ((pyInt (exp_cn * m_cn) : ℚ), min ((pyInt (exp_cn * m_cn) : ℚ) + 1) m_cn)

/-- The per-mutation total-presence expression of minor.py lines 306-307
(computed but never constrained). -/
def cnExpr (gene : Gene) (insts : List (SolvedAllele × Nat)) (asg : Asg) (m : Mutation) : ℚ :=
  (insts.map (fun k =>
    if m ∈ alleleMuts gene k.1 then b2q (asg.mpresent k m) * b2q (asg.A k) else 0)).sum +
  (insts.map (fun k =>
    if m ∉ alleleMuts gene k.1 then b2q (asg.madd k m) * b2q (asg.A k) else 0)).sum

/-- The defensive assert of minor.py line 229: while building the
reference-state constraints, each covered instance may claim at most one
non-insertion mutation per position. -/
def refCheck (gene : Gene) (muts : List Mutation) (insts : List (SolvedAllele × Nat)) :
    Option PyErr :=
  (mutPositions muts).findSome? (fun pos =>
    if insts.any (fun k => gene.has_coverage k.1.major pos &&
        decide (2 ≤ (presentMutsAt gene k.1 pos).length))
    then some PyErr.assertionError else none)

/-- The latent dict fault of minor.py line 279: summing MADD[a][m] over
instances not defining a functional m accesses a variable that was never
created when the instance's major allele lacks coverage at m's position. -/
def funcAddCheck (gene : Gene) (muts : List Mutation) (insts : List (SolvedAllele × Nat)) :
    Option PyErr :=
  muts.findSome? (fun m =>
    if m.is_functional && insts.any (fun k =>
        decide (m ∉ alleleMuts gene k.1) && !gene.has_coverage k.1.major m.pos)
    then some PyErr.keyError else none)

/-- The faults of minor.py lines 294-310, per relevant mutation: the same
latent MADD dict fault while building the advisory expression (line 307),
then the defensive asserts lo ≥ 0 and hi ≤ m_cn (lines 309-310). -/
def cnCheck (gene : Gene) (coverage : Coverage) (major_sol : MajorSolution)
    (muts : List Mutation) (insts : List (SolvedAllele × Nat)) : Option PyErr :=
  muts.findSome? (fun m =>
    if insts.any (fun k =>
        decide (m ∉ alleleMuts gene k.1) && !gene.has_coverage k.1.major m.pos)
    then some PyErr.keyError
    else if (cnBounds coverage major_sol m).1 < 0 then some PyErr.assertionError
    else if major_sol.cn_solution.position_cn m.pos < (cnBounds coverage major_sol m).2
    then some PyErr.assertionError
    else none)

/-- All faults the model build can raise after the instance keys exist, in
source order. -/
def buildChecks (gene : Gene) (coverage : Coverage) (major_sol : MajorSolution)
    (muts : List Mutation) (insts : List (SolvedAllele × Nat)) : Option PyErr :=
  match refCheck gene muts insts with
  | some e => some e
  | none =>
    match funcAddCheck gene muts insts with
    | some e => some e
    | none => cnCheck gene coverage major_sol muts insts

/-- Solution reconstruction (minor.py lines 339-354): one SolvedAllele per
instance whose presence variable solved positive; its missing list collects
defining mutations whose MPRESENT solved to zero, its added tuple is the
major-level forced-added tuple concatenated with the MADD mutations solved to
one. -/
def reconstructSolution (gene : Gene) (muts : List Mutation)
    (insts : List (SolvedAllele × Nat)) (asg : Asg) : List SolvedAllele :=
  (insts.filter (fun k => asg.A k)).map (fun k =>
    ⟨k.1.major, k.1.minor,
     k.1.added ++ (maddDom gene muts k.1).filter (fun m => asg.madd k m),
     (alleleMuts gene k.1).filter (fun m => !asg.mpresent k m)⟩)

/-- solve_minor_model.  The solver backend is abstracted by an oracle: none
models a NoSolutionsError from model.solve (caught and turned into an empty
result list), some (asg, opt) models a successful solve returning variable
assignment asg with optimal objective value opt.  The build faults
(KeyError / AssertionError) happen before the try block and propagate. -/
def solve_minor_model (gene : Gene) (alleles_list : List SolvedAllele)
    (coverage : Coverage) (major_sol : MajorSolution) (mutations : List Mutation)
    (solver : String) (oracle : Option (Asg × ℚ)) : Except PyErr (List MinorSolution) :=
  let muts := pyDedup mutations
  match buildInsts major_sol alleles_list with
  | .error e => .error e
  | .ok insts =>
    match buildChecks gene coverage major_sol muts insts with
    | some e => .error e
    | none =>
      match oracle with
      | none => .ok []
      | some (asg, opt) =>
        .ok [⟨opt, reconstructSolution gene muts insts asg, major_sol⟩]

/-- The sum of absolute values of all error variables (minor.py line 315):
one per relevant mutation plus one reference marker per distinct position. -/
def errAbsSum (muts : List Mutation) (asg : Asg) : ℚ :=
  ((pyDedup (muts ++ (mutPositions muts).map refMut)).map (fun m => |asg.e m|)).sum

/-- The miss-penalty expression of the non-scip objective (minor.py
lines 329-330). -/
def missExpr (gene : Gene) (insts : List (SolvedAllele × Nat)) (asg : Asg) : ℚ :=
  (insts.map (fun k =>
    ((alleleMuts gene k.1).map
      (fun m => b2q (asg.A k) * (1 - b2q (asg.mpresent k m)))).sum)).sum

/-- The add-penalty expression (minor.py lines 324-325 and 331-332). -/
def addExprSum (gene : Gene) (muts : List Mutation) (insts : List (SolvedAllele × Nat))
    (asg : Asg) : ℚ :=
  (insts.map (fun k =>
    ((maddDom gene muts k.1).map (fun m => b2q (asg.madd k m))).sum)).sum

/-- The objective used for every backend except scip (minor.py lines 328-332). -/
def minorObjective (gene : Gene) (muts : List Mutation) (insts : List (SolvedAllele × Nat))
    (asg : Asg) : ℚ :=
  errAbsSum muts asg + MISS_PENALTY_FACTOR * missExpr gene insts asg
    + ADD_PENALTY_FACTOR * addExprSum gene muts insts asg

/-- The nonlinear miss-penalty expression bounded by the slack w in the scip
branch (minor.py lines 320-326). -/
def scipMissExpr (gene : Gene) (insts : List (SolvedAllele × Nat)) (asg : Asg) : ℚ :=
  (insts.map (fun k =>
    MISS_PENALTY_FACTOR * b2q (asg.A k) *
      ((alleleMuts gene k.1).map (fun m => 1 - b2q (asg.mpresent k m))).sum)).sum

/-- The scip objective (minor.py lines 316-327): error sum plus add penalty
plus the slack variable w. -/
def scipObjective (muts : List Mutation) (gene : Gene) (insts : List (SolvedAllele × Nat))
    (asg : Asg) (w : ℚ) : ℚ :=
  errAbsSum muts asg + ADD_PENALTY_FACTOR * addExprSum gene muts insts asg + w

/-- Feasibility of the scip variant: the shared constraints plus the epigraph
constraint nonlinear_obj ≤ w (minor.py line 326). -/
def ScipFeasible (gene : Gene) (coverage : Coverage) (major_sol : MajorSolution)
    (muts : List Mutation) (insts : List (SolvedAllele × Nat)) (asg : Asg) (w : ℚ) : Prop :=
  MinorFeasible gene coverage major_sol muts insts asg ∧ scipMissExpr gene insts asg ≤ w

/-- Optimality for the non-scip encoding. -/
def IsOptimal (gene : Gene) (coverage : Coverage) (major_sol : MajorSolution)
    (muts : List Mutation) (insts : List (SolvedAllele × Nat)) (asg : Asg) : Prop :=
  MinorFeasible gene coverage major_sol muts insts asg ∧
  ∀ asg' : Asg, MinorFeasible gene coverage major_sol muts insts asg' →
    minorObjective gene muts insts asg ≤ minorObjective gene muts insts asg'

/-- Optimality for the scip encoding. -/
def IsScipOptimal (gene : Gene) (coverage : Coverage) (major_sol : MajorSolution)
    (muts : List Mutation) (insts : List (SolvedAllele × Nat)) (asg : Asg) (w : ℚ) : Prop :=
  ScipFeasible gene coverage major_sol muts insts asg w ∧
  ∀ (asg' : Asg) (w' : ℚ), ScipFeasible gene coverage major_sol muts insts asg' w' →
    scipObjective muts gene insts asg w ≤ scipObjective muts gene insts asg' w'

/-- The error of an Except result, when any. -/
def errOf {α : Type} : Except PyErr α → Option PyErr
  | .error e => some e
  | .ok _ => none

/-- Whether an Except result is a normal return. -/
def isOkB {α : Type} : Except PyErr α → Bool
  | .error _ => false
  | .ok _ => true

/-- Strict lexicographic comparison of Mutation namedtuples, as Python's
sorted uses on (pos, op, is_functional). -/
def mutLt (a b : Mutation) : Bool :=
  decide (a.pos < b.pos) || (decide (a.pos = b.pos) && (decide (a.op < b.op) ||
    (decide (a.op = b.op) && (!a.is_functional && b.is_functional))))

/-- Lexicographic comparison of lists given element comparison. -/
def listLtBy {α : Type} (lt : α → α → Bool) (eqb : α → α → Bool) :
    List α → List α → Bool
  | [], [] => false
  | [], _ :: _ => true
  | _ :: _, [] => false
  | a :: as, b :: bs => lt a b || (eqb a b && listLtBy lt eqb as bs)

/-- Comparison of optional minor names (none before some). -/
def optStrLt : Option String → Option String → Bool
  | none, none => false
  | none, some _ => true
  | some _, none => false
  | some a, some b => decide (a < b)

/-- Lexicographic comparison of SolvedAllele namedtuples. -/
def saLt (a b : SolvedAllele) : Bool :=
  decide (a.major < b.major) || (decide (a.major = b.major) && (optStrLt a.minor b.minor ||
    (decide (a.minor = b.minor) &&
      (listLtBy mutLt (fun x y => decide (x = y)) a.added b.added ||
        (decide (a.added = b.added) &&
          listLtBy mutLt (fun x y => decide (x = y)) a.missing b.missing)))))

/-- Comparison of solution items (SolvedAllele, count). -/
def itemLt (p q : SolvedAllele × Nat) : Bool :=
  saLt p.1 q.1 || (decide (p.1 = q.1) && decide (p.2 < q.2))

/-- The sort key of estimate_minor line 114: major solutions ordered by their
solution item lists. -/
def msolLe (s t : MajorSolution) : Bool :=
  !(listLtBy itemLt (fun x y => decide (x = y)) t.solution s.solution)

/-- Ordered insertion for the stable ascending sort of estimate_minor. -/
def insertSorted {α : Type} (le : α → α → Bool) (a : α) : List α → List α
  | [] => [a]
  | b :: l => if le a b then a :: b :: l else b :: insertSorted le a l

/-- Insertion sort embedding Python's sorted. -/
def insertionSort {α : Type} (le : α → α → Bool) : List α → List α
  | [] => []
  | a :: l => insertSorted le a (insertionSort le l)

/-- The pooled candidate list of estimate_minor lines 90-95: for every major
solution, for every major-level key, one candidate per minor allele of that
major, carrying the key's added tuple and an empty missing tuple. -/
def pooledAlleles (gene : Gene) (major_sols : List MajorSolution) : List SolvedAllele :=
  (major_sols.map (fun s =>
    (s.solution.map (fun p =>
      (gene.alleles p.1.major).minors.map
        (fun mp => (⟨p.1.major, some mp.1, p.1.added, []⟩ : SolvedAllele)))).flatten)).flatten

/-- The pooled relevant-mutation universe of estimate_minor lines 96-99:
functional mutations, forced-added mutations and all minors' neutral
mutations, over every major solution. -/
def pooledMutations (gene : Gene) (major_sols : List MajorSolution) : List Mutation :=
  (major_sols.map (fun s =>
    (s.solution.map (fun p =>
      (gene.alleles p.1.major).func_muts ++ p.1.added ++
        ((gene.alleles p.1.major).minors.map (fun mp => mp.2)).flatten)).flatten)).flatten

/-- The per-major-solution loop of estimate_minor lines 113-116: each solve's
result list is concatenated; any Python fault raised by a solve propagates. -/
def estimateGo (gene : Gene) (alleles : List SolvedAllele) (coverage : Coverage)
    (muts : List Mutation) (solver : String) (oracleF : MajorSolution → Option (Asg × ℚ)) :
    List MajorSolution → Except PyErr (List MinorSolution)
  | [] => .ok []
  | s :: rest =>
    match solve_minor_model gene alleles coverage s muts solver (oracleF s) with
    | .error e => .error e
    | .ok xs =>
      match estimateGo gene alleles coverage muts solver oracleF rest with
      | .error e => .error e
      | .ok ys => .ok (xs ++ ys)

/-- estimate_minor: pools candidates and mutations from all major solutions,
then solves each major solution in sorted order against the pooled lists.
The coverage filtering step (Coverage.filtered with the default filter) is an
external Coverage capability; the coverage argument stands for the filtered
snapshot it produces. -/
def estimate_minor (gene : Gene) (coverage : Coverage) (major_sols : List MajorSolution)
    (solver : String) (oracleF : MajorSolution → Option (Asg × ℚ)) :
    Except PyErr (List MinorSolution) :=
  estimateGo gene (pooledAlleles gene major_sols) coverage
    (pooledMutations gene major_sols) solver oracleF (insertionSort msolLe major_sols)

/-! ### Concrete instances for witnesses and counterexamples -/

/-- The all-false assignment with zero errors. -/
def asg0 : Asg := ⟨fun _ => false, fun _ _ => false, fun _ _ => false, fun _ => 0⟩

/-- An empty gene catalog. -/
def gene0 : Gene := ⟨fun _ => ⟨[], []⟩, fun _ _ => true⟩

/-- A trivial coverage snapshot. -/
def cov0 : Coverage := ⟨fun _ _ => 0, fun _ _ => 1, fun _ _ => 0⟩

/-- A trivial copy-number solution. -/
def cn0 : CnSolution := ⟨fun _ => 0⟩

/-- A major solution with no alleles. -/
def msol0 : MajorSolution := ⟨[], cn0⟩

/-- A major allele with two minors and no mutations at all. -/
def gene1 : Gene := ⟨fun _ => ⟨[], [("x1", []), ("x2", [])]⟩, fun _ _ => true⟩

/-- First minor candidate of gene1's major allele X. -/
def cand11 : SolvedAllele := ⟨"X", some "x1", [], []⟩

/-- Second minor candidate of gene1's major allele X. -/
def cand12 : SolvedAllele := ⟨"X", some "x2", [], []⟩

/-- The major-level key shared by cand11 and cand12. -/
def base1 : SolvedAllele := ⟨"X", none, [], []⟩

/-- Major solution giving key base1 copy count 2. -/
def msol1 : MajorSolution := ⟨[(base1, 2)], cn0⟩

/-- Instance keys for msol1 over [cand11, cand12], as buildInsts produces. -/
def insts1 : List (SolvedAllele × Nat) := [(cand11, 0), (cand12, 0), (cand11, 1), (cand12, 1)]

/-- Assignment selecting copy 0 of both minor candidates. -/
def asg1 : Asg := ⟨fun k => decide (k.2 = 0), fun _ _ => false, fun _ _ => false, fun _ => 0⟩

/-- A functional mutation at position 1. -/
def fm2 : Mutation := ⟨1, "SNP.AC", true⟩

/-- A gene whose major allele X has one functional mutation and one minor. -/
def gene2 : Gene := ⟨fun _ => ⟨[fm2], [("x1", [])]⟩, fun _ _ => true⟩

/-- The single minor candidate of gene2. -/
def cand2 : SolvedAllele := ⟨"X", some "x1", [], []⟩

/-- The major-level key of cand2. -/
def base2 : SolvedAllele := ⟨"X", none, [], []⟩

/-- Uniform copy number 1. -/
def cn2 : CnSolution := ⟨fun _ => 1⟩

/-- Major solution giving base2 copy count 1. -/
def msol2 : MajorSolution := ⟨[(base2, 1)], cn2⟩

/-- Coverage fully supporting fm2 (fraction 1 everywhere, percentage 100). -/
def cov2 : Coverage := ⟨fun _ _ => 1, fun _ _ => 1, fun _ _ => 100⟩

/-- Instance keys for msol2 over [cand2]. -/
def insts2 : List (SolvedAllele × Nat) := [(cand2, 0)]

/-- Assignment selecting cand2 with fm2 expressed; the reference error at
position 1 absorbs the observed reference fraction. -/
def asg2 : Asg :=
  ⟨fun _ => true, fun _ _ => true, fun _ _ => false,
   fun m => if m.op = "_" then 1 else 0⟩

/-- A neutral mutation at position 100. -/
def nm4 : Mutation := ⟨100, "SNP.CT", false⟩

/-- A gene whose major allele X has no mutations of its own and no coverage
anywhere (structurally deleted region). -/
def gene4 : Gene := ⟨fun _ => ⟨[], [("x1", [])]⟩, fun _ _ => false⟩

/-- Candidate whose major-level key force-adds nm4. -/
def cand4 : SolvedAllele := ⟨"X", some "x1", [nm4], []⟩

/-- The major-level key of cand4, carrying nm4 as forced-added. -/
def base4 : SolvedAllele := ⟨"X", none, [nm4], []⟩

/-- Major solution giving base4 copy count 1. -/
def msol4 : MajorSolution := ⟨[(base4, 1)], cn0⟩

/-- Zero observed coverage. -/
def cov4 : Coverage := ⟨fun _ _ => 0, fun _ _ => 1, fun _ _ => 0⟩

/-- Instance keys for msol4 over [cand4]. -/
def insts4 : List (SolvedAllele × Nat) := [(cand4, 0)]

/-- Assignment selecting cand4 (forced by the count constraint); nm4 cannot be
expressed since its position has no coverage. -/
def asg4 : Asg := ⟨fun _ => true, fun _ _ => false, fun _ _ => false, fun _ => 0⟩

/-- A neutral mutation at position 7. -/
def nm9 : Mutation := ⟨7, "SNP.AG", false⟩

/-- Coverage observing 5 reads for every key with percentage 10. -/
def cov9 : Coverage := ⟨fun _ _ => 5, fun _ _ => 1, fun _ _ => 10⟩

/-- A copy-number solution with the half-integral position copy number the
source comments anticipate. -/
def cnHalf : CnSolution := ⟨fun _ => 1/2⟩

/-- Major solution used for the copy-number-bound counterexample. -/
def msol9h : MajorSolution := ⟨[], cnHalf⟩

/-- A gene whose major allele X carries nm9 as the single neutral mutation of
its single minor. -/
def gene9 : Gene := ⟨fun _ => ⟨[], [("x1", [nm9])]⟩, fun _ _ => true⟩

/-- The minor candidate of gene9. -/
def cand9 : SolvedAllele := ⟨"X", some "x1", [], []⟩

/-- The major-level key of cand9. -/
def base9 : SolvedAllele := ⟨"X", none, [], []⟩

/-- Major solution assigning copy count 0 to base9, with integral copy
number 1. -/
def msol9 : MajorSolution := ⟨[(base9, 0)], cn2⟩

/-- Instance keys for msol9 over [cand9]. -/
def insts9 : List (SolvedAllele × Nat) := [(cand9, 0)]

/-- The assignment forced by the zero count: nothing selected, errors absorb
all observed coverage. -/
def asg9 : Asg := ⟨fun _ => false, fun _ _ => false, fun _ _ => false, fun _ => 5⟩

/-- A neutral mutation at position 5. -/
def nm8 : Mutation := ⟨5, "SNP.CT", false⟩

/-- A gene whose major allele X carries nm8 as the single neutral mutation of
its single minor. -/
def gene8 : Gene := ⟨fun _ => ⟨[], [("x1", [nm8])]⟩, fun _ _ => true⟩

/-- The shared major-level key of the C8 scenario. -/
def base8 : SolvedAllele := ⟨"X", none, [], []⟩

/-- Major solution with half-integral position copy number: its model build
trips the defensive assert hi ≤ m_cn. -/
def msol8a : MajorSolution := ⟨[(base8, 1)], cnHalf⟩

/-- Major solution identical except for an integral copy number: its model
build passes all asserts. -/
def msol8b : MajorSolution := ⟨[(base8, 1)], cn2⟩

/-- Coverage observing 5 reads with percentage 100. -/
def cov8 : Coverage := ⟨fun _ _ => 5, fun _ _ => 1, fun _ _ => 100⟩

/-- A solver oracle that always returns the all-false assignment with
objective value 0. -/
def oracleF0 : MajorSolution → Option (Asg × ℚ) := fun _ => some (asg0, 0)

/-- The pooled candidate produced for both C8 major solutions. -/
def cand8 : SolvedAllele := ⟨"X", some "x1", [], []⟩

/-- A gene giving every major allele one minor with no mutations. -/
def gene10 : Gene := ⟨fun _ => ⟨[], [("m1", [])]⟩, fun _ _ => true⟩

/-- Major solution over major allele A only. -/
def msol10a : MajorSolution := ⟨[(⟨"A", none, [], []⟩, 1)], cn2⟩

/-- Major solution over major allele B only. -/
def msol10b : MajorSolution := ⟨[(⟨"B", none, [], []⟩, 1)], cn2⟩

/-! ### Helper lemmas -/

@[simp] theorem b2q_true : b2q true = 1 := rfl

@[simp] theorem b2q_false : b2q false = 0 := rfl

theorem b2q_nonneg (b : Bool) : 0 ≤ b2q b := by cases b <;> simp

theorem b2q_le_zero (b : Bool) (h : b2q b ≤ 0) : b = false := by
  cases b
  · rfl
  · simp at h; exact absurd h (by norm_num)

theorem b2q_le_b2q_true (a b : Bool) (h : b2q a ≤ b2q b) (ha : a = true) : b = true := by
  subst ha
  cases b
  · simp at h; exact absurd h (by norm_num)
  · rfl

theorem one_sub_b2q (b : Bool) : 1 - b2q b = b2q (!b) := by cases b <;> simp

theorem mem_pyDedupAux {α : Type} [DecidableEq α] (a : α) (l seen : List α) :
    a ∈ pyDedupAux seen l ↔ (a ∈ l ∧ a ∉ seen) := by
  induction l generalizing seen with
  | nil => simp [pyDedupAux]
  | cons b l ih =>
    by_cases hb : b ∈ seen
    · simp only [pyDedupAux, if_pos hb, ih, List.mem_cons]
      by_cases hab : a = b
      · subst hab; simp [hb]
      · simp [hab]
    · simp only [pyDedupAux, if_neg hb, List.mem_cons, ih]
      by_cases hab : a = b
      · subst hab; simp [hb]
      · simp [hab]

theorem mem_pyDedup {α : Type} [DecidableEq α] (a : α) (l : List α) :
    a ∈ pyDedup l ↔ a ∈ l := by
  simp [pyDedup, mem_pyDedupAux]

theorem sum_map_b2q {α : Type} (l : List α) (f : α → Bool) :
    (l.map (fun x => b2q (f x))).sum = ((l.filter f).length : ℚ) := by
  induction l with
  | nil => simp
  | cons a l ih =>
    simp only [List.map_cons, List.sum_cons, List.filter_cons, ih]
    cases h : f a <;> simp [h] <;> push_cast <;> ring

theorem sum_map_mul_left {α : Type} (l : List α) (c : ℚ) (f : α → ℚ) :
    (l.map (fun x => c * f x)).sum = c * (l.map f).sum := by
  induction l with
  | nil => simp
  | cons a l ih => simp [ih, mul_add]

theorem length_filter_add_not {α : Type} (l : List α) (f : α → Bool) :
    (l.filter f).length + (l.filter (fun x => !f x)).length = l.length := by
  induction l with
  | nil => rfl
  | cons a l ih => cases h : f a <;> simp [List.filter_cons, h, ← ih] <;> omega

theorem scipMissExpr_eq (gene : Gene) (insts : List (SolvedAllele × Nat)) (asg : Asg) :
    scipMissExpr gene insts asg = MISS_PENALTY_FACTOR * missExpr gene insts asg := by
  unfold scipMissExpr missExpr
  induction insts with
  | nil => simp
  | cons k l ih => simp only [List.map_cons, List.sum_cons, ih, sum_map_mul_left]; ring

theorem errOf_eq_some_iff {α : Type} (r : Except PyErr α) (e : PyErr) :
    errOf r = some e ↔ r = .error e := by
  cases r <;> simp [errOf]

theorem isOkB_iff {α : Type} (r : Except PyErr α) :
    isOkB r = true ↔ ∃ xs, r = .ok xs := by
  cases r <;> simp [isOkB]

theorem instsExtra_ok_lookup (major_sol : MajorSolution) (l : List SolvedAllele)
    (insts : List (SolvedAllele × Nat)) (h : instsExtra major_sol l = .ok insts) :
    ∀ a ∈ l, (dictFind (baseKey a) major_sol.solution).isSome = true := by
  induction l generalizing insts with
  | nil => simp
  | cons b l ih =>
    intro a ha
    unfold instsExtra at h
    cases hf : dictFind (baseKey b) major_sol.solution with
    | none => rw [hf] at h; simp at h
    | some n =>
      rw [hf] at h
      cases hr : instsExtra major_sol l with
      | error e => rw [hr] at h; simp at h
      | ok tail =>
        rcases List.mem_cons.mp ha with rfl | ha'
        · simp [hf]
        · exact ih tail hr a ha'

theorem instsExtra_err_of_mem (major_sol : MajorSolution) (l : List SolvedAllele)
    (a : SolvedAllele) (ha : a ∈ l) (hf : dictFind (baseKey a) major_sol.solution = none) :
    instsExtra major_sol l = .error .keyError := by
  induction l with
  | nil => simp at ha
  | cons b l ih =>
    unfold instsExtra
    rcases List.mem_cons.mp ha with rfl | ha'
    · rw [hf]
    · cases hb : dictFind (baseKey b) major_sol.solution with
      | none => rfl
      | some n => rw [ih ha']

theorem buildInsts_ok_lookup (major_sol : MajorSolution) (alleles_list : List SolvedAllele)
    (insts : List (SolvedAllele × Nat)) (h : buildInsts major_sol alleles_list = .ok insts) :
    ∀ a ∈ alleles_list, (dictFind (baseKey a) major_sol.solution).isSome = true := by
  intro a ha
  unfold buildInsts at h
  cases hr : instsExtra major_sol (pyDedup alleles_list) with
  | error e => rw [hr] at h; simp at h
  | ok extra =>
    exact instsExtra_ok_lookup major_sol _ extra hr a ((mem_pyDedup a _).mpr ha)

theorem solve_err_of_lookup (gene : Gene) (alleles_list : List SolvedAllele)
    (coverage : Coverage) (major_sol : MajorSolution) (mutations : List Mutation)
    (solver : String) (oracle : Option (Asg × ℚ)) (a : SolvedAllele)
    (ha : a ∈ alleles_list) (hf : dictFind (baseKey a) major_sol.solution = none) :
    solve_minor_model gene alleles_list coverage major_sol mutations solver oracle
      = .error .keyError := by
  unfold solve_minor_model buildInsts
  rw [instsExtra_err_of_mem major_sol _ a ((mem_pyDedup a _).mpr ha) hf]

theorem solve_ok_lookup (gene : Gene) (alleles_list : List SolvedAllele)
    (coverage : Coverage) (major_sol : MajorSolution) (mutations : List Mutation)
    (solver : String) (oracle : Option (Asg × ℚ))
    (h : isOkB (solve_minor_model gene alleles_list coverage major_sol mutations solver
      oracle) = true) :
    ∀ a ∈ alleles_list, (dictFind (baseKey a) major_sol.solution).isSome = true := by
  intro a ha
  by_contra hbad
  have hf : dictFind (baseKey a) major_sol.solution = none := by
    cases hd : dictFind (baseKey a) major_sol.solution
    · rfl
    · rw [hd] at hbad; simp at hbad
  rw [solve_err_of_lookup gene alleles_list coverage major_sol mutations solver oracle
    a ha hf] at h
  simp [isOkB] at h

theorem estimateGo_append_err (gene : Gene) (alleles : List SolvedAllele)
    (coverage : Coverage) (muts : List Mutation) (solver : String)
    (oracleF : MajorSolution → Option (Asg × ℚ)) (s : MajorSolution)
    (post : List MajorSolution) (e : PyErr)
    (hs : solve_minor_model gene alleles coverage s muts solver (oracleF s) = .error e) :
    ∀ pre : List MajorSolution,
      (∀ t ∈ pre, isOkB (solve_minor_model gene alleles coverage t muts solver
        (oracleF t)) = true) →
      estimateGo gene alleles coverage muts solver oracleF (pre ++ s :: post)
        = .error e := by
  intro pre
  induction pre with
  | nil =>
    intro _
    simp only [List.nil_append]
    unfold estimateGo
    rw [hs]
  | cons t pre ih =>
    intro hok
    have ht := hok t (List.mem_cons_self t pre)
    rcases (isOkB_iff _).mp ht with ⟨xs, hxs⟩
    simp only [List.cons_append]
    unfold estimateGo
    rw [hxs, ih (fun u hu => hok u (List.mem_cons_of_mem t hu))]

theorem insertionSort_pair {α : Type} (le : α → α → Bool) (a b : α) :
    insertionSort le [a, b] = [a, b] ∨ insertionSort le [a, b] = [b, a] := by
  simp only [insertionSort, insertSorted]
  cases h : le a b <;> simp [h]

theorem mem_insertSorted {α : Type} (le : α → α → Bool) (a b : α) (l : List α) :
    a ∈ insertSorted le b l ↔ a = b ∨ a ∈ l := by
  induction l with
  | nil => simp [insertSorted]
  | cons c l ih =>
    simp only [insertSorted]
    cases le b c <;> simp [ih, List.mem_cons] <;> tauto

theorem mem_insertionSort {α : Type} (le : α → α → Bool) (a : α) (l : List α) :
    a ∈ insertionSort le l ↔ a ∈ l := by
  induction l with
  | nil => simp [insertionSort]
  | cons b l ih => simp [insertionSort, mem_insertSorted, ih]

theorem estimateGo_fault (gene : Gene) (alleles : List SolvedAllele) (coverage : Coverage)
    (muts : List Mutation) (solver : String) (oracleF : MajorSolution → Option (Asg × ℚ))
    (s : MajorSolution) (e : PyErr)
    (herr : solve_minor_model gene alleles coverage s muts solver (oracleF s) = .error e) :
    ∀ l : List MajorSolution, s ∈ l →
      (∀ t ∈ l, t = s ∨ isOkB (solve_minor_model gene alleles coverage t muts solver
        (oracleF t)) = true) →
      estimateGo gene alleles coverage muts solver oracleF l = .error e := by
  intro l
  induction l with
  | nil => simp
  | cons t l ih =>
    intro hs hok
    by_cases ht : t = s
    · subst ht
      unfold estimateGo
      rw [herr]
    · rcases hok t (List.mem_cons_self t l) with rfl | htok
      · exact absurd rfl ht
      · rcases (isOkB_iff _).mp htok with ⟨xs, hxs⟩
        have hs' : s ∈ l := by
          rcases List.mem_cons.mp hs with rfl | h'
          · exact absurd rfl ht
          · exact h'
        unfold estimateGo
        rw [hxs, ih hs' (fun u hu => hok u (List.mem_cons_of_mem t hu))]

theorem sum_one_sub_b2q {α : Type} (l : List α) (f : α → Bool) :
    (l.map (fun x => 1 - b2q (f x))).sum = ((l.filter (fun x => !f x)).length : ℚ) := by
  simp only [one_sub_b2q]
  exact sum_map_b2q l (fun x => !f x)

theorem missExpr_eq (gene : Gene) (insts : List (SolvedAllele × Nat)) (asg : Asg) :
    missExpr gene insts asg = (insts.map (fun k =>
      b2q (asg.A k) *
        (((alleleMuts gene k.1).filter (fun m => !asg.mpresent k m)).length : ℚ))).sum := by
  unfold missExpr
  induction insts with
  | nil => simp
  | cons k l ih =>
    simp only [List.map_cons, List.sum_cons, ih, sum_map_mul_left, sum_one_sub_b2q]

theorem addExprSum_eq (gene : Gene) (muts : List Mutation)
    (insts : List (SolvedAllele × Nat)) (asg : Asg) :
    addExprSum gene muts insts asg = (insts.map (fun k =>
      (((maddDom gene muts k.1).filter (fun m => asg.madd k m)).length : ℚ))).sum := by
  unfold addExprSum
  induction insts with
  | nil => simp
  | cons k l ih => simp only [List.map_cons, List.sum_cons, ih, sum_map_b2q]

theorem scipObjective_at_nl (gene : Gene) (muts : List Mutation)
    (insts : List (SolvedAllele × Nat)) (asg : Asg) :
    scipObjective muts gene insts asg (scipMissExpr gene insts asg)
      = minorObjective gene muts insts asg := by
  unfold scipObjective minorObjective
  rw [scipMissExpr_eq]
  ring

theorem mem_pooledAlleles (gene : Gene) (sols : List MajorSolution) (s : MajorSolution)
    (hs : s ∈ sols) (p : SolvedAllele × Nat) (hp : p ∈ s.solution)
    (mp : String × List Mutation) (hmp : mp ∈ (gene.alleles p.1.major).minors) :
    (⟨p.1.major, some mp.1, p.1.added, []⟩ : SolvedAllele) ∈ pooledAlleles gene sols := by
  unfold pooledAlleles
  rw [List.mem_flatten]
  refine ⟨_, List.mem_map_of_mem _ hs, ?_⟩
  rw [List.mem_flatten]
  exact ⟨_, List.mem_map_of_mem _ hp, List.mem_map_of_mem _ hmp⟩

/-! ### Evaluation of the concrete scenarios -/

theorem feas_gene1 : MinorFeasible gene1 cov0 msol1 [] insts1 asg1 := by
  unfold MinorFeasible
  norm_num [insts1, asg1, msol1, base1, cand11, cand12, baseKey, b2q, mutPositions, pyDedup,
    pyDedupAux, alleleMuts, minorNeutral, funcMutsOf, maddDom, gene1, List.filter]

theorem feas_gene2 : MinorFeasible gene2 cov2 msol2 [fm2] insts2 asg2 := by
  unfold MinorFeasible
  norm_num [insts2, asg2, msol2, base2, cand2, baseKey, b2q, mutPositions, pyDedup, pyDedupAux,
    alleleMuts, minorNeutral, funcMutsOf, maddDom, gene2, cov2, cn2, fm2, covFrac, mutExpr,
    refExpr, refContrib, presentMutsAt, refMut, List.filter, List.findSome?]
  decide

theorem feas_gene4 : MinorFeasible gene4 cov4 msol4 [nm4] insts4 asg4 := by
  unfold MinorFeasible
  norm_num [insts4, asg4, msol4, base4, cand4, baseKey, b2q, mutPositions, pyDedup, pyDedupAux,
    alleleMuts, minorNeutral, funcMutsOf, maddDom, gene4, cov4, cn0, nm4, covFrac, mutExpr,
    refExpr, refContrib, presentMutsAt, refMut, List.filter, List.findSome?]

theorem feas_gene9 : MinorFeasible gene9 cov9 msol9 [nm9] insts9 asg9 := by
  unfold MinorFeasible
  norm_num [insts9, asg9, msol9, base9, cand9, baseKey, b2q, mutPositions, pyDedup, pyDedupAux,
    alleleMuts, minorNeutral, funcMutsOf, maddDom, gene9, cov9, cn2, nm9, covFrac, mutExpr,
    refExpr, refContrib, presentMutsAt, refMut, List.filter, List.findSome?]

theorem checks_gene1 : buildChecks gene1 cov0 msol1 (pyDedup []) insts1 = none := by decide

theorem insts_gene1 : buildInsts msol1 [cand11, cand12] = .ok insts1 := by decide

theorem checks_gene2 : buildChecks gene2 cov2 msol2 (pyDedup [fm2]) insts2 = none := by
  norm_num [buildChecks, refCheck, funcAddCheck, cnCheck, cnBounds, pyInt, List.findSome?,
    mutPositions, pyDedup, pyDedupAux, presentMutsAt, alleleMuts, minorNeutral, maddDom,
    gene2, cov2, msol2, cn2, fm2, insts2, cand2, List.any, List.filter]
  decide

theorem insts_gene2 : buildInsts msol2 [cand2] = .ok insts2 := by decide

theorem checks_gene4 : buildChecks gene4 cov4 msol4 (pyDedup [nm4]) insts4 = none := by
  norm_num [buildChecks, refCheck, funcAddCheck, cnCheck, cnBounds, pyInt, List.findSome?,
    mutPositions, pyDedup, pyDedupAux, presentMutsAt, alleleMuts, minorNeutral, maddDom,
    gene4, cov4, msol4, cn0, nm4, insts4, cand4, List.any, List.filter]

theorem insts_gene4 : buildInsts msol4 [cand4] = .ok insts4 := by decide

theorem checks_gene9 : buildChecks gene9 cov9 msol9 (pyDedup [nm9]) insts9 = none := by
  norm_num [buildChecks, refCheck, funcAddCheck, cnCheck, cnBounds, pyInt, List.findSome?,
    mutPositions, pyDedup, pyDedupAux, presentMutsAt, alleleMuts, minorNeutral, maddDom,
    gene9, cov9, msol9, cn2, nm9, insts9, cand9, List.any, List.filter]
  decide

theorem pooled8_eq : pooledAlleles gene8 [msol8a, msol8b] = [cand8, cand8] := by decide

theorem pooledMut8_eq : pooledMutations gene8 [msol8a, msol8b] = [nm8, nm8] := by decide

theorem insts8_eq : buildInsts msol8a [cand8, cand8] = .ok [(cand8, 0)] := by decide

theorem insts8b_eq : buildInsts msol8b [cand8, cand8] = .ok [(cand8, 0)] := by decide

theorem checks8a_eq :
    buildChecks gene8 cov8 msol8a (pyDedup [nm8, nm8]) [(cand8, 0)]
      = some .assertionError := by
  norm_num [buildChecks, refCheck, funcAddCheck, cnCheck, cnBounds, pyInt, List.findSome?,
    mutPositions, pyDedup, pyDedupAux, presentMutsAt, alleleMuts, minorNeutral, maddDom,
    gene8, cov8, msol8a, cnHalf, nm8, cand8, List.any, List.filter]
  decide

theorem checks8b_eq :
    buildChecks gene8 cov8 msol8b (pyDedup [nm8, nm8]) [(cand8, 0)] = none := by
  norm_num [buildChecks, refCheck, funcAddCheck, cnCheck, cnBounds, pyInt, List.findSome?,
    mutPositions, pyDedup, pyDedupAux, presentMutsAt, alleleMuts, minorNeutral, maddDom,
    gene8, cov8, msol8b, cn2, nm8, cand8, List.any, List.filter]
  decide

theorem solve8a_err :
    solve_minor_model gene8 (pooledAlleles gene8 [msol8a, msol8b]) cov8 msol8a
      (pooledMutations gene8 [msol8a, msol8b]) "cbc" (oracleF0 msol8a)
      = .error .assertionError := by
  rw [pooled8_eq, pooledMut8_eq]
  simp only [solve_minor_model, insts8_eq, checks8a_eq]

theorem solve8b_ok :
    solve_minor_model gene8 (pooledAlleles gene8 [msol8a, msol8b]) cov8 msol8b
      (pooledMutations gene8 [msol8a, msol8b]) "cbc" (oracleF0 msol8b)
      = .ok [⟨0, reconstructSolution gene8 (pyDedup [nm8, nm8]) [(cand8, 0)] asg0,
             msol8b⟩] := by
  rw [pooled8_eq, pooledMut8_eq]
  simp only [solve_minor_model, insts8b_eq, checks8b_eq, oracleF0]

/-! ### Claim C1 -/

/-- Claim C1 (corrected): in every feasible assignment of the model built by
solve_minor_model, for every base SolvedAllele key in major_sol.solution with
count n, exactly n candidate instances carrying that base key have presence 1
(the equality constraint), and the presence variables of the copy slots of
each individual candidate are downward closed (A[a,c] ≤ A[a,c-1]); the
original claim's stronger reading — that the selected copy indices of all
instances sharing one base key form the contiguous prefix 0..n-1 — fails,
because several minor candidates share one base key and the ordering
constraint is per candidate, not per base key (see the counterexample). -/
theorem c1_count_and_copy_order (gene : Gene) (coverage : Coverage)
    (major_sol : MajorSolution) (muts : List Mutation)
    (insts : List (SolvedAllele × Nat)) (asg : Asg)
    (h : MinorFeasible gene coverage major_sol muts insts asg) :
    (∀ p ∈ major_sol.solution,
      (insts.filter (fun k => asg.A k && decide (baseKey k.1 = p.1))).length = p.2)
    ∧ (∀ k ∈ insts, k.2 ≠ 0 → asg.A k = true → asg.A (k.1, k.2 - 1) = true) := by
  obtain ⟨hord, hcnt, -⟩ := h
  constructor
  · intro p hp
    have hq := hcnt p hp
    rw [sum_map_b2q, List.filter_filter] at hq
    exact_mod_cast hq
  · intro k hk hk2 hA
    exact b2q_le_b2q_true _ _ (hord k hk hk2) hA

/-- Claim C1 counterexample: a feasible assignment (of a reachable model:
buildInsts and buildChecks succeed) in which base1 has count 2 and exactly 2
selected instances, yet no selected instance has copy index 1 — the two
selected instances are copy 0 of two different minors, so the selected copy
indices of the instances sharing base1 are {0}, not the prefix {0, 1}. -/
theorem c1_counterexample :
    MinorFeasible gene1 cov0 msol1 [] insts1 asg1
    ∧ buildInsts msol1 [cand11, cand12] = .ok insts1
    ∧ buildChecks gene1 cov0 msol1 (pyDedup []) insts1 = none
    ∧ (base1, 2) ∈ msol1.solution
    ∧ (insts1.filter (fun k => asg1.A k && decide (baseKey k.1 = base1))).length = 2
    ∧ insts1.any (fun k => asg1.A k && decide (baseKey k.1 = base1) && decide (k.2 = 1))
        = false := by
  refine ⟨feas_gene1, insts_gene1, checks_gene1, ?_, ?_, ?_⟩
  · simp [msol1]
  · decide
  · decide

/-- Claim C1 witness: the amended theorem applied to the concrete feasible
scenario of gene1. -/
theorem c1_witness :
    MinorFeasible gene1 cov0 msol1 [] insts1 asg1
    ∧ (insts1.filter (fun k => asg1.A k && decide (baseKey k.1 = base1))).length = 2 :=
  ⟨feas_gene1,
   (c1_count_and_copy_order gene1 cov0 msol1 [] insts1 asg1 feas_gene1).1
     (base1, 2) (by simp [msol1])⟩

/-! ### Claim C2 -/

/-- Claim C2 (confirmed): in every feasible assignment, for every candidate
instance the number of its functional defining mutations with MPRESENT = 1
equals the full functional count times its presence variable; consequently a
selected instance misses either none or all of its functional mutations
(in fact none), and in the reconstructed solution every emitted SolvedAllele's
missing list contains 0 functional mutations (which is one arm of the claimed
0-or-all disjunction). -/
theorem c2_functional_all_or_none (gene : Gene) (coverage : Coverage)
    (major_sol : MajorSolution) (muts : List Mutation)
    (insts : List (SolvedAllele × Nat)) (asg : Asg)
    (h : MinorFeasible gene coverage major_sol muts insts asg) :
    (∀ k ∈ insts,
      (((funcMutsOf gene k.1).filter (fun m => asg.mpresent k m)).length : ℚ)
        = ((funcMutsOf gene k.1).length : ℚ) * b2q (asg.A k))
    ∧ (∀ k ∈ insts, asg.A k = true →
        ((funcMutsOf gene k.1).filter (fun m => !asg.mpresent k m)).length = 0
        ∨ ((funcMutsOf gene k.1).filter (fun m => !asg.mpresent k m)).length
            = (funcMutsOf gene k.1).length)
    ∧ (∀ sa ∈ reconstructSolution gene muts insts asg,
        ∃ k, (k ∈ insts ∧ asg.A k = true)
          ∧ sa.missing = (alleleMuts gene k.1).filter (fun m => !asg.mpresent k m)
          ∧ ((sa.missing.filter (fun m => m.is_functional)).length = 0
             ∨ (sa.missing.filter (fun m => m.is_functional)).length
                 = (funcMutsOf gene k.1).length)) := by
  have h7 := h.2.2.2.2.2.2.1
  have part1 : ∀ k ∈ insts,
      (((funcMutsOf gene k.1).filter (fun m => asg.mpresent k m)).length : ℚ)
        = ((funcMutsOf gene k.1).length : ℚ) * b2q (asg.A k) := by
    intro k hk
    by_cases hp : funcMutsOf gene k.1 = []
    · simp [hp]
    · have hc := h7 k hk hp
      rw [sum_map_b2q] at hc
      exact hc
  have part2 : ∀ k ∈ insts, asg.A k = true →
      ((funcMutsOf gene k.1).filter (fun m => !asg.mpresent k m)).length = 0 := by
    intro k hk hA
    have hq := part1 k hk
    rw [hA, b2q_true, mul_one] at hq
    have hlen : ((funcMutsOf gene k.1).filter (fun m => asg.mpresent k m)).length
        = (funcMutsOf gene k.1).length := by exact_mod_cast hq
    have hsum := length_filter_add_not (funcMutsOf gene k.1) (fun m => asg.mpresent k m)
    omega
  refine ⟨part1, fun k hk hA => Or.inl (part2 k hk hA), ?_⟩
  intro sa hsa
  unfold reconstructSolution at hsa
  rw [List.mem_map] at hsa
  obtain ⟨k, hkf, heq⟩ := hsa
  rw [List.mem_filter] at hkf
  subst heq
  refine ⟨k, ⟨hkf.1, hkf.2⟩, rfl, Or.inl ?_⟩
  have hcomm : ((alleleMuts gene k.1).filter (fun m => !asg.mpresent k m)).filter
      (fun m => m.is_functional)
      = (funcMutsOf gene k.1).filter (fun m => !asg.mpresent k m) := by
    unfold funcMutsOf
    rw [List.filter_filter, List.filter_filter]
    exact List.filter_congr (fun m _ => by rw [Bool.and_comm])
  show (((alleleMuts gene k.1).filter (fun m => !asg.mpresent k m)).filter
      (fun m => m.is_functional)).length = 0
  rw [hcomm]
  exact part2 k hkf.1 hkf.2

/-- Claim C2 witness: the theorem applied to the concrete feasible scenario of
gene2, whose candidate carries one functional mutation. -/
theorem c2_witness :
    MinorFeasible gene2 cov2 msol2 [fm2] insts2 asg2
    ∧ (((funcMutsOf gene2 cand2).filter
          (fun m => asg2.mpresent (cand2, 0) m)).length : ℚ)
        = ((funcMutsOf gene2 cand2).length : ℚ) * b2q (asg2.A (cand2, 0)) :=
  ⟨feas_gene2,
   (c2_functional_all_or_none gene2 cov2 msol2 [fm2] insts2 asg2 feas_gene2).1
     (cand2, 0) (by simp [insts2])⟩

/-! ### Claim C3 -/

/-- Claim C3 (confirmed): in every feasible assignment of the built model, for
every relevant mutation m the sum over all candidate instances of
MPRESENT·A (when m defines the instance) or MADD·A (when m does not define it
but the instance's major allele has coverage at m's position), plus the error
variable E[m], equals the observed coverage of m divided by the expected
single-copy coverage at m's position under the copy-number solution. -/
theorem c3_coverage_constraint (gene : Gene) (coverage : Coverage)
    (major_sol : MajorSolution) (muts : List Mutation)
    (insts : List (SolvedAllele × Nat)) (asg : Asg)
    (h : MinorFeasible gene coverage major_sol muts insts asg) :
    ∀ m ∈ muts,
      (insts.map (fun k =>
        if m ∈ alleleMuts gene k.1 then b2q (asg.mpresent k m) * b2q (asg.A k)
        else if gene.has_coverage k.1.major m.pos then b2q (asg.madd k m) * b2q (asg.A k)
        else 0)).sum + asg.e m
      = coverage.cov m.pos m.op / coverage.single_copy m.pos major_sol.cn_solution :=
  fun m hm => h.2.2.1 m hm

/-- Claim C3 witness: the coverage-consistency constraint instantiated at the
concrete feasible scenario of gene2 and its functional mutation fm2. -/
theorem c3_witness :
    MinorFeasible gene2 cov2 msol2 [fm2] insts2 asg2
    ∧ (insts2.map (fun k =>
        if fm2 ∈ alleleMuts gene2 k.1 then b2q (asg2.mpresent k fm2) * b2q (asg2.A k)
        else if gene2.has_coverage k.1.major fm2.pos then
          b2q (asg2.madd k fm2) * b2q (asg2.A k)
        else 0)).sum + asg2.e fm2
      = cov2.cov fm2.pos fm2.op / cov2.single_copy fm2.pos msol2.cn_solution :=
  ⟨feas_gene2,
   c3_coverage_constraint gene2 cov2 msol2 [fm2] insts2 asg2 feas_gene2 fm2 (by simp)⟩

/-! ### Claim C4 -/

/-- Claim C4 (corrected): in every feasible assignment, a defining mutation at
a position without coverage for the instance's major allele has MPRESENT
forced to 0 (so it always lands in the reconstructed missing list), and no
MADD variable exists for such a pair, so the mutation is never added by the
minor model.  The original claim's stronger reading — that such a mutation
never appears in the added tuple of any returned SolvedAllele — fails, because
the reconstruction concatenates the major-level forced-added tuple verbatim
(see the counterexample); what holds is that any such occurrence comes from
the major-level added tuple, never from the minor model. -/
theorem c4_zero_coverage_exclusion (gene : Gene) (coverage : Coverage)
    (major_sol : MajorSolution) (muts : List Mutation)
    (insts : List (SolvedAllele × Nat)) (asg : Asg)
    (h : MinorFeasible gene coverage major_sol muts insts asg) :
    ∀ k ∈ insts, ∀ m : Mutation, gene.has_coverage k.1.major m.pos = false →
      (m ∈ alleleMuts gene k.1 → asg.mpresent k m = false)
      ∧ m ∉ maddDom gene muts k.1
      ∧ (m ∈ alleleMuts gene k.1 →
          m ∈ (alleleMuts gene k.1).filter (fun m' => !asg.mpresent k m'))
      ∧ (m ∈ k.1.added ++ (maddDom gene muts k.1).filter (fun m' => asg.madd k m') →
          m ∈ k.1.added) := by
  intro k hk m hcov
  have h8 := h.2.2.2.2.2.2.2.1
  have hmp : m ∈ alleleMuts gene k.1 → asg.mpresent k m = false := fun hm =>
    b2q_le_zero _ (h8 k hk m hm hcov)
  have hnd : m ∉ maddDom gene muts k.1 := by
    intro hmem
    unfold maddDom at hmem
    rw [List.mem_filter] at hmem
    simp [hcov] at hmem
  refine ⟨hmp, hnd, ?_, ?_⟩
  · intro hm
    rw [List.mem_filter]
    refine ⟨hm, by rw [hmp hm]; rfl⟩
  · intro hm
    rcases List.mem_append.mp hm with h1 | h1
    · exact h1
    · exact absurd (List.mem_filter.mp h1).1 hnd

/-- Claim C4 counterexample: a reachable model (buildInsts and buildChecks
succeed) with a feasible assignment whose reconstructed SolvedAllele carries
the zero-coverage mutation nm4 in its added tuple (inherited from the
major-level forced-added tuple) — so "m never appears as present or added in
any returned SolvedAllele" is false as stated; nm4 also lands in the missing
list, as the amended claim predicts. -/
theorem c4_counterexample :
    MinorFeasible gene4 cov4 msol4 [nm4] insts4 asg4
    ∧ buildInsts msol4 [cand4] = .ok insts4
    ∧ buildChecks gene4 cov4 msol4 (pyDedup [nm4]) insts4 = none
    ∧ gene4.has_coverage "X" nm4.pos = false
    ∧ reconstructSolution gene4 (pyDedup [nm4]) insts4 asg4
        = [⟨"X", some "x1", [nm4], [nm4]⟩] := by
  refine ⟨feas_gene4, insts_gene4, checks_gene4, rfl, ?_⟩
  decide

/-- Claim C4 witness: the amended theorem applied to the concrete gene4
scenario at instance (cand4, 0) and mutation nm4. -/
theorem c4_witness :
    MinorFeasible gene4 cov4 msol4 [nm4] insts4 asg4
    ∧ asg4.mpresent (cand4, 0) nm4 = false
    ∧ nm4 ∉ maddDom gene4 [nm4] cand4 :=
  ⟨feas_gene4,
   (c4_zero_coverage_exclusion gene4 cov4 msol4 [nm4] insts4 asg4 feas_gene4
     (cand4, 0) (by simp [insts4]) nm4 rfl).1 (by decide),
   (c4_zero_coverage_exclusion gene4 cov4 msol4 [nm4] insts4 asg4 feas_gene4
     (cand4, 0) (by simp [insts4]) nm4 rfl).2.1⟩

/-! ### Claim C5 -/

/-- Claim C5 (confirmed): the minimized objective equals the sum of absolute
values of all error variables, plus MISS_PENALTY_FACTOR for each defining
mutation of a selected instance whose MPRESENT indicator is 0, plus
ADD_PENALTY_FACTOR for each MADD indicator equal to 1; and under feasibility
an instance with presence 0 contributes no miss penalty (the term is gated by
A) and no add penalty (MADD ≤ A forces its indicators to 0). -/
theorem c5_objective_structure (gene : Gene) (coverage : Coverage)
    (major_sol : MajorSolution) (muts : List Mutation)
    (insts : List (SolvedAllele × Nat)) (asg : Asg) :
    minorObjective gene muts insts asg
      = errAbsSum muts asg
        + MISS_PENALTY_FACTOR * (insts.map (fun k =>
            b2q (asg.A k) *
              (((alleleMuts gene k.1).filter (fun m => !asg.mpresent k m)).length : ℚ))).sum
        + ADD_PENALTY_FACTOR * (insts.map (fun k =>
            (((maddDom gene muts k.1).filter (fun m => asg.madd k m)).length : ℚ))).sum
    ∧ (MinorFeasible gene coverage major_sol muts insts asg →
        ∀ k ∈ insts, asg.A k = false →
          ((alleleMuts gene k.1).map
            (fun m => b2q (asg.A k) * (1 - b2q (asg.mpresent k m)))).sum = 0
          ∧ ((maddDom gene muts k.1).map (fun m => b2q (asg.madd k m))).sum = 0) := by
  constructor
  · unfold minorObjective
    rw [missExpr_eq, addExprSum_eq]
  · intro h k hk hA
    constructor
    · simp [hA]
    · have h6 := h.2.2.2.2.2.1
      have hz : ∀ m ∈ maddDom gene muts k.1, asg.madd k m = false := by
        intro m hm
        apply b2q_le_zero
        have hle := h6 k hk m hm
        rwa [hA, b2q_false] at hle
      rw [sum_map_b2q]
      have hnil : (maddDom gene muts k.1).filter (fun m => asg.madd k m) = [] := by
        rw [List.filter_eq_nil_iff]
        intro m hm
        simp [hz m hm]
      rw [hnil]
      simp

/-- Claim C5 witness: the absent-instance clause applied to the concrete
feasible gene1 scenario at the unselected copy slot (cand11, 1). -/
theorem c5_witness :
    MinorFeasible gene1 cov0 msol1 [] insts1 asg1
    ∧ ((alleleMuts gene1 cand11).map
        (fun m => b2q (asg1.A (cand11, 1)) * (1 - b2q (asg1.mpresent (cand11, 1) m)))).sum
        = 0
    ∧ ((maddDom gene1 [] cand11).map (fun m => b2q (asg1.madd (cand11, 1) m))).sum = 0 :=
  ⟨feas_gene1,
   ((c5_objective_structure gene1 cov0 msol1 [] insts1 asg1).2 feas_gene1
     (cand11, 1) (by simp [insts1]) (by decide)).1,
   ((c5_objective_structure gene1 cov0 msol1 [] insts1 asg1).2 feas_gene1
     (cand11, 1) (by simp [insts1]) (by decide)).2⟩

/-! ### Claim C6 -/

/-- Helper for the C6 witness: on the empty model every assignment is
feasible with objective 0, so the all-false assignment is optimal. -/
theorem triv_optimal : IsOptimal gene0 cov0 msol0 [] [] asg0 := by
  constructor
  · unfold MinorFeasible
    simp [msol0, mutPositions, pyDedup, pyDedupAux]
  · intro asg' _
    have h0 : ∀ a : Asg, minorObjective gene0 [] [] a = 0 := by
      intro a
      unfold minorObjective errAbsSum missExpr addExprSum
      simp [mutPositions, pyDedup, pyDedupAux]
    rw [h0, h0]

/-- Claim C6 (confirmed): the scip encoding (epigraph slack w with
nonlinear-miss ≤ w added to the objective) and the direct nonlinear encoding
are equivalent: every optimum of the direct encoding extends to a scip
optimum (with w equal to the nonlinear miss expression) of equal objective
value, and every scip optimum projects to a direct optimum of equal objective
value — so both encodings have the same optimal value and the same optimal
assignments to the shared A/MPRESENT/MADD/E variables. -/
theorem c6_scip_linearization_equiv (gene : Gene) (coverage : Coverage)
    (major_sol : MajorSolution) (muts : List Mutation)
    (insts : List (SolvedAllele × Nat)) :
    (∀ asg : Asg, IsOptimal gene coverage major_sol muts insts asg →
      IsScipOptimal gene coverage major_sol muts insts asg (scipMissExpr gene insts asg)
      ∧ scipObjective muts gene insts asg (scipMissExpr gene insts asg)
          = minorObjective gene muts insts asg)
    ∧ (∀ (asg : Asg) (w : ℚ), IsScipOptimal gene coverage major_sol muts insts asg w →
      IsOptimal gene coverage major_sol muts insts asg
      ∧ scipObjective muts gene insts asg w = minorObjective gene muts insts asg) := by
  constructor
  · rintro asg ⟨hfeas, hopt⟩
    refine ⟨⟨⟨hfeas, le_refl _⟩, ?_⟩, scipObjective_at_nl gene muts insts asg⟩
    rintro asg' w' ⟨hfeas', hw'⟩
    rw [scipObjective_at_nl]
    calc minorObjective gene muts insts asg
        ≤ minorObjective gene muts insts asg' := hopt asg' hfeas'
      _ = scipObjective muts gene insts asg' (scipMissExpr gene insts asg') :=
          (scipObjective_at_nl gene muts insts asg').symm
      _ ≤ scipObjective muts gene insts asg' w' := by
          unfold scipObjective
          linarith
  · rintro asg w ⟨⟨hfeas, hw⟩, hopt⟩
    have hwle : w ≤ scipMissExpr gene insts asg := by
      have hx := hopt asg (scipMissExpr gene insts asg) ⟨hfeas, le_refl _⟩
      unfold scipObjective at hx
      linarith
    have hweq : w = scipMissExpr gene insts asg := le_antisymm hwle hw
    subst hweq
    refine ⟨⟨hfeas, ?_⟩, scipObjective_at_nl gene muts insts asg⟩
    intro asg' hfeas'
    have h1 := hopt asg' (scipMissExpr gene insts asg') ⟨hfeas', le_refl _⟩
    rw [scipObjective_at_nl, scipObjective_at_nl] at h1
    exact h1

/-- Claim C6 witness: the equivalence applied to the (trivially optimal)
all-false assignment of the empty model. -/
theorem c6_witness :
    IsOptimal gene0 cov0 msol0 [] [] asg0
    ∧ IsScipOptimal gene0 cov0 msol0 [] [] asg0 (scipMissExpr gene0 [] asg0)
    ∧ scipObjective [] gene0 [] asg0 (scipMissExpr gene0 [] asg0)
        = minorObjective gene0 [] [] asg0 :=
  ⟨triv_optimal,
   ((c6_scip_linearization_equiv gene0 cov0 msol0 [] []).1 asg0 triv_optimal).1,
   ((c6_scip_linearization_equiv gene0 cov0 msol0 [] []).1 asg0 triv_optimal).2⟩

/-! ### Claim C7 -/

/-- Claim C7 (confirmed): once the model build succeeds, solve_minor_model
returns a list of length at most one; solver infeasibility (oracle none,
modelling the caught NoSolutionsError) yields the empty list without any
fault; a successful solve yields exactly one MinorSolution whose score is the
solver's reported objective value, whose major_solution is the input, and
whose solution is the reconstruction: one SolvedAllele per positive-presence
instance, with added = the major-level forced-added tuple concatenated with
the MADD mutations solved to one, and missing = the defining mutations whose
MPRESENT solved to zero. -/
theorem c7_solve_result_shape (gene : Gene) (alleles_list : List SolvedAllele)
    (coverage : Coverage) (major_sol : MajorSolution) (mutations : List Mutation)
    (solver : String) (insts : List (SolvedAllele × Nat)) (asg : Asg) (opt : ℚ)
    (hbi : buildInsts major_sol alleles_list = .ok insts)
    (hbc : buildChecks gene coverage major_sol (pyDedup mutations) insts = none) :
    solve_minor_model gene alleles_list coverage major_sol mutations solver none = .ok []
    ∧ solve_minor_model gene alleles_list coverage major_sol mutations solver
        (some (asg, opt))
      = .ok [⟨opt, reconstructSolution gene (pyDedup mutations) insts asg, major_sol⟩]
    ∧ (∀ (oracle : Option (Asg × ℚ)) (xs : List MinorSolution),
        solve_minor_model gene alleles_list coverage major_sol mutations solver oracle
          = .ok xs →
        xs.length ≤ 1 ∧ ∀ sol ∈ xs, sol.major_solution = major_sol)
    ∧ (∀ sa : SolvedAllele,
        sa ∈ reconstructSolution gene (pyDedup mutations) insts asg ↔
        ∃ k, k ∈ insts ∧ asg.A k = true ∧
          sa = ⟨k.1.major, k.1.minor,
                k.1.added ++ (maddDom gene (pyDedup mutations) k.1).filter
                  (fun m => asg.madd k m),
                (alleleMuts gene k.1).filter (fun m => !asg.mpresent k m)⟩) := by
  refine ⟨?_, ?_, ?_, ?_⟩
  · simp only [solve_minor_model, hbi, hbc]
  · simp only [solve_minor_model, hbi, hbc]
  · intro oracle xs h
    simp only [solve_minor_model, hbi, hbc] at h
    cases oracle with
    | none =>
      injection h with h
      subst h
      exact ⟨by simp, by simp⟩
    | some p =>
      obtain ⟨a, o⟩ := p
      injection h with h
      subst h
      refine ⟨by simp, ?_⟩
      intro sol hsol
      rw [List.mem_singleton] at hsol
      subst hsol
      rfl
  · intro sa
    unfold reconstructSolution
    rw [List.mem_map]
    constructor
    · rintro ⟨k, hkf, rfl⟩
      rw [List.mem_filter] at hkf
      exact ⟨k, hkf.1, hkf.2, rfl⟩
    · rintro ⟨k, hk, hA, rfl⟩
      exact ⟨k, List.mem_filter.mpr ⟨hk, hA⟩, rfl⟩

/-- Claim C7 witness: the infeasibility clause applied to the concrete gene2
scenario, whose build succeeds. -/
theorem c7_witness :
    buildInsts msol2 [cand2] = .ok insts2
    ∧ buildChecks gene2 cov2 msol2 (pyDedup [fm2]) insts2 = none
    ∧ solve_minor_model gene2 [cand2] cov2 msol2 [fm2] "cbc" none = .ok [] :=
  ⟨insts_gene2, checks_gene2,
   (c7_solve_result_shape gene2 [cand2] cov2 msol2 [fm2] "cbc" insts2 asg2 0
     insts_gene2 checks_gene2).1⟩

/-! ### Claim C8 -/

/-- Claim C8 (corrected): estimate_minor does NOT isolate invariant-violation
faults.  Only solver infeasibility is handled per major solution (as an empty
contribution); a Python fault raised while building one major solution's
model propagates out of estimate_minor: even when every other major
solution's model build and solve succeed, estimate_minor returns that fault
to its caller instead of the partial result list (this theorem), as the
concrete counterexample with one faulting and one clean major solution
shows. -/
theorem c8_fault_propagation (gene : Gene) (coverage : Coverage)
    (sols : List MajorSolution) (solver : String)
    (oracleF : MajorSolution → Option (Asg × ℚ))
    (s : MajorSolution) (e : PyErr) (hs : s ∈ sols)
    (hok : ∀ t ∈ sols, t ≠ s →
      isOkB (solve_minor_model gene (pooledAlleles gene sols) coverage t
        (pooledMutations gene sols) solver (oracleF t)) = true)
    (herr : solve_minor_model gene (pooledAlleles gene sols) coverage s
      (pooledMutations gene sols) solver (oracleF s) = .error e) :
    errOf (estimate_minor gene coverage sols solver oracleF) = some e := by
  unfold estimate_minor
  rw [estimateGo_fault gene _ coverage _ solver oracleF s e herr (insertionSort msolLe sols)
    ((mem_insertionSort msolLe s sols).mpr hs) ?_]
  · rfl
  · intro t ht
    by_cases hts : t = s
    · exact Or.inl hts
    · exact Or.inr (hok t ((mem_insertionSort msolLe t sols).mp ht) hts)

/-- Claim C8 counterexample: two major solutions where msol8a's model build
fails the defensive assert (its half-integral copy number makes hi ≤ m_cn
fail) while msol8b's build and solve succeed; the claim predicts the fault is
isolated and the partial list from msol8b is returned, but estimate_minor
returns the AssertionError to its caller. -/
theorem c8_counterexample :
    errOf (estimate_minor gene8 cov8 [msol8a, msol8b] "cbc" oracleF0)
      = some PyErr.assertionError
    ∧ isOkB (solve_minor_model gene8 (pooledAlleles gene8 [msol8a, msol8b]) cov8 msol8b
        (pooledMutations gene8 [msol8a, msol8b]) "cbc" (oracleF0 msol8b)) = true := by
  constructor
  · unfold estimate_minor
    rcases insertionSort_pair msolLe msol8a msol8b with h | h <;> rw [h] <;>
      simp [estimateGo, solve8a_err, solve8b_ok, errOf]
  · rw [solve8b_ok]
    rfl

/-- Claim C8 witness: the amended theorem applied to the concrete two-solution
scenario with the faulting msol8a. -/
theorem c8_witness :
    errOf (estimate_minor gene8 cov8 [msol8a, msol8b] "cbc" oracleF0)
      = some PyErr.assertionError := by
  apply c8_fault_propagation gene8 cov8 [msol8a, msol8b] "cbc" oracleF0 msol8a
    PyErr.assertionError
  · exact List.mem_cons_self _ _
  · intro t ht hne
    rcases List.mem_cons.mp ht with rfl | ht2
    · exact absurd rfl hne
    · rw [List.mem_singleton] at ht2
      subst ht2
      rw [solve8b_ok]
      rfl
  · exact solve8a_err

/-! ### Claim C9 -/

/-- Claim C9 (corrected): the advisory per-mutation copy-number bounds satisfy
lo ≥ 0 and hi ≤ m_cn — i.e. the defensive asserts never fail — provided the
coverage percentage is non-negative and the position copy number is a natural
number; and the bounds are indeed advisory only: a reachable model (build
checks pass) admits a feasible assignment whose per-mutation total-presence
expression lies strictly below lo.  The original unconditional claim fails
for the half-integral position copy numbers the source itself anticipates
(see the counterexample, where hi = 1 > m_cn = 1/2 and the assert fires). -/
theorem c9_advisory_cn_bounds :
    (∀ (coverage : Coverage) (major_sol : MajorSolution) (m : Mutation),
      0 ≤ coverage.percentage m.pos m.op →
      (∃ n : ℕ, major_sol.cn_solution.position_cn m.pos = (n : ℚ)) →
      0 ≤ (cnBounds coverage major_sol m).1
      ∧ (cnBounds coverage major_sol m).2 ≤ major_sol.cn_solution.position_cn m.pos)
    ∧ (MinorFeasible gene9 cov9 msol9 [nm9] insts9 asg9
       ∧ buildChecks gene9 cov9 msol9 (pyDedup [nm9]) insts9 = none
       ∧ cnExpr gene9 insts9 asg9 nm9 < (cnBounds cov9 msol9 nm9).1) := by
  constructor
  · rintro cov msol m hperc ⟨n, hn⟩
    by_cases h0 : msol.cn_solution.position_cn m.pos = 0
    · unfold cnBounds
      simp only [if_pos h0]
      rw [h0]
      norm_num
    · by_cases h1 : 0 < cov.cov m.pos m.op ∧
          pyInt (cov.percentage m.pos m.op / 100 * msol.cn_solution.position_cn m.pos) = 0
      · unfold cnBounds
        simp only [if_neg h0, if_pos h1]
        have hne : n ≠ 0 := by
          rintro rfl
          exact h0 (by rw [hn]; norm_num)
        have hn1 : 1 ≤ (n : ℚ) := by exact_mod_cast Nat.one_le_iff_ne_zero.mpr hne
        rw [hn]
        exact ⟨by norm_num, hn1⟩
      · unfold cnBounds
        simp only [if_neg h0, if_neg h1]
        constructor
        · have hx0 : 0 ≤ cov.percentage m.pos m.op / 100 *
              msol.cn_solution.position_cn m.pos := by
            apply mul_nonneg (div_nonneg hperc (by norm_num))
            rw [hn]
            positivity
          unfold pyInt
          rw [if_pos hx0]
          exact_mod_cast Int.floor_nonneg.mpr hx0
        · exact min_le_right _ _
  · refine ⟨feas_gene9, checks_gene9, ?_⟩
    norm_num [cnExpr, cnBounds, pyInt, gene9, cov9, msol9, cn2, nm9, insts9, cand9, asg9,
      alleleMuts, minorNeutral, pyDedup, pyDedupAux, b2q, List.filter]

/-- Claim C9 counterexample: with observed coverage 5, percentage 10 and a
half-integral position copy number 1/2 (the source's own comments anticipate
0.5 summands), the computed bounds are (1, 1) and hi = 1 exceeds m_cn = 1/2,
so assert(hi <= m_cn) fails — cnCheck reports the AssertionError (and the C8
counterexample shows the same assert firing through the full
estimate_minor pipeline). -/
theorem c9_counterexample :
    (cnBounds cov9 msol9h nm9).2 = 1
    ∧ msol9h.cn_solution.position_cn nm9.pos = 1/2
    ∧ ¬ ((cnBounds cov9 msol9h nm9).2 ≤ msol9h.cn_solution.position_cn nm9.pos)
    ∧ cnCheck gene9 cov9 msol9h [nm9] insts9 = some PyErr.assertionError := by
  refine ⟨?_, by norm_num [msol9h, cnHalf], ?_, ?_⟩
  · norm_num [cnBounds, pyInt, cov9, msol9h, cnHalf, nm9]
  · norm_num [cnBounds, pyInt, cov9, msol9h, cnHalf, nm9]
  · norm_num [cnCheck, cnBounds, pyInt, List.findSome?, alleleMuts, minorNeutral,
      pyDedup, pyDedupAux, gene9, cov9, msol9h, cnHalf, nm9, insts9, cand9,
      List.any, List.filter]

/-- Claim C9 witness: the amended bounds property applied to the gene9
scenario, whose position copy number is the natural number 1. -/
theorem c9_witness :
    0 ≤ (cnBounds cov9 msol9 nm9).1
    ∧ (cnBounds cov9 msol9 nm9).2 ≤ msol9.cn_solution.position_cn nm9.pos :=
  c9_advisory_cn_bounds.1 cov9 msol9 nm9 (by norm_num [cov9]) ⟨1, by norm_num [msol9, cn2]⟩

/-! ### Claim C10 -/

/-- Claim C10 (confirmed): solve_minor_model returns normally only when every
candidate's base key is present in major_sol.solution (the per-candidate copy
count lookup of minor.py line 176); and because estimate_minor pools the
candidates of all input MajorSolutions but solves each one against the pooled
list, two MajorSolutions that each contain a key (whose major has at least
one minor) absent from the other make the per-candidate count lookup fail
with a KeyError — whichever solution is solved first — so estimate_minor
raises instead of producing a result list. -/
theorem c10_pooled_lookup_keyerror :
    (∀ (gene : Gene) (alleles_list : List SolvedAllele) (coverage : Coverage)
       (major_sol : MajorSolution) (mutations : List Mutation) (solver : String)
       (oracle : Option (Asg × ℚ)),
      isOkB (solve_minor_model gene alleles_list coverage major_sol mutations solver
        oracle) = true →
      ∀ a ∈ alleles_list, (dictFind (baseKey a) major_sol.solution).isSome = true)
    ∧ (∀ (gene : Gene) (coverage : Coverage) (solver : String)
         (oracleF : MajorSolution → Option (Asg × ℚ)) (s1 s2 : MajorSolution)
         (p1 p2 : SolvedAllele × Nat),
        p1 ∈ s1.solution → (gene.alleles p1.1.major).minors ≠ [] →
        dictFind ⟨p1.1.major, none, p1.1.added, []⟩ s2.solution = none →
        p2 ∈ s2.solution → (gene.alleles p2.1.major).minors ≠ [] →
        dictFind ⟨p2.1.major, none, p2.1.added, []⟩ s1.solution = none →
        errOf (estimate_minor gene coverage [s1, s2] solver oracleF)
          = some PyErr.keyError) := by
  constructor
  · exact fun gene al cov msol muts solver oracle h =>
      solve_ok_lookup gene al cov msol muts solver oracle h
  · intro gene cov solver oracleF s1 s2 p1 p2 hp1 hm1 hf1 hp2 hm2 hf2
    obtain ⟨mp2, hmp2⟩ := List.exists_mem_of_ne_nil _ hm2
    obtain ⟨mp1, hmp1⟩ := List.exists_mem_of_ne_nil _ hm1
    have hc2 : (⟨p2.1.major, some mp2.1, p2.1.added, []⟩ : SolvedAllele)
        ∈ pooledAlleles gene [s1, s2] :=
      mem_pooledAlleles gene [s1, s2] s2 (by simp) p2 hp2 mp2 hmp2
    have hc1 : (⟨p1.1.major, some mp1.1, p1.1.added, []⟩ : SolvedAllele)
        ∈ pooledAlleles gene [s1, s2] :=
      mem_pooledAlleles gene [s1, s2] s1 (by simp) p1 hp1 mp1 hmp1
    have hs1 : solve_minor_model gene (pooledAlleles gene [s1, s2]) cov s1
        (pooledMutations gene [s1, s2]) solver (oracleF s1) = .error .keyError :=
      solve_err_of_lookup gene _ cov s1 _ solver _ _ hc2 hf2
    have hs2 : solve_minor_model gene (pooledAlleles gene [s1, s2]) cov s2
        (pooledMutations gene [s1, s2]) solver (oracleF s2) = .error .keyError :=
      solve_err_of_lookup gene _ cov s2 _ solver _ _ hc1 hf1
    unfold estimate_minor
    rcases insertionSort_pair msolLe s1 s2 with h | h <;> rw [h]
    · unfold estimateGo
      rw [hs1]
      rfl
    · unfold estimateGo
      rw [hs2]
      rfl

/-- Claim C10 witness: part one applied to the successful gene2 build (every
candidate's base key resolvable), part two applied to two MajorSolutions over
different major alleles A and B, on which estimate_minor raises KeyError. -/
theorem c10_witness :
    (∀ a ∈ [cand2], (dictFind (baseKey a) msol2.solution).isSome = true)
    ∧ errOf (estimate_minor gene10 cov0 [msol10a, msol10b] "cbc" oracleF0)
        = some PyErr.keyError := by
  constructor
  · apply c10_pooled_lookup_keyerror.1 gene2 [cand2] cov2 msol2 [fm2] "cbc" none
    have hok : solve_minor_model gene2 [cand2] cov2 msol2 [fm2] "cbc" none = .ok [] := by
      simp only [solve_minor_model, insts_gene2, checks_gene2]
    rw [hok]
    rfl
  · exact c10_pooled_lookup_keyerror.2 gene10 cov0 "cbc" oracleF0 msol10a msol10b
      (⟨"A", none, [], []⟩, 1) (⟨"B", none, [], []⟩, 1)
      (by simp [msol10a]) (by decide) (by decide)
      (by simp [msol10b]) (by decide) (by decide)

end Aldy
